import Mathlib

/-!
Shallow embedding of the HTTP relay service (an Express application in two
variants: `server.js` and an unnamed variant adding a `POST /extract-text`
OCR + translation pipeline).  Strings are modelled as `List Char`; the
JavaScript string operations used by the handlers (`indexOf`, `lastIndexOf`,
`substring`, `slice`, `trim`) are embedded with their clamping semantics,
and `JSON.parse` is embedded as a fuel-based recursive-descent parser over
a `Json` value type (numbers are kept as their lexemes; no numeric claim
depends on float semantics).
-/

/-! ## JavaScript string primitives -/

/-- JSON-grammar whitespace accepted by `JSON.parse`. -/
def isJsonWs (c : Char) : Bool :=
  c = ' ' || c = '\t' || c = '\n' || c = '\r'

/-- Whitespace stripped by `String.prototype.trim` (WhiteSpace ∪ LineTerminator). -/
def isTrimWs (c : Char) : Bool :=
  c = ' ' || c = '\t' || c = '\n' || c = '\r' || c.val = 11 || c.val = 12 ||
  c.val = 160 || c.val = 65279 || c.val = 5760 ||
  (8192 ≤ c.val && c.val ≤ 8202) || c.val = 8232 || c.val = 8233 ||
  c.val = 8239 || c.val = 8287 || c.val = 12288

def skipWs (s : List Char) : List Char := s.dropWhile isJsonWs

/-- Index of the first occurrence of a character, if any. -/
def findFirstIndex (c : Char) : List Char → Option Nat
  | [] => none
  | x :: xs => if x = c then some 0 else (findFirstIndex c xs).map (· + 1)

/-- `String.prototype.indexOf` for a single-character needle: -1 when absent. -/
def jsIndexOfChar (s : List Char) (c : Char) : Int :=
  match findFirstIndex c s with
  | some i => (i : Int)
  | none => -1

/-- `String.prototype.lastIndexOf` for a single-character needle. -/
def jsLastIndexOf (s : List Char) (c : Char) : Int :=
  match findFirstIndex c s.reverse with
  | some i => ((s.length - 1 - i : Nat) : Int)
  | none => -1

/-- `String.prototype.substring(start)`: a negative start is clamped to 0. -/
def jsSubstringFrom (s : List Char) (start : Int) : List Char :=
  s.drop start.toNat

/-- `String.prototype.slice(start)`: a negative start counts from the end. -/
def jsSlice (s : List Char) (start : Int) : List Char :=
  if start < 0 then s.drop ((s.length + start : Int)).toNat else s.drop start.toNat

/-- `String.prototype.substring(a, b)` with clamping to `[0, length]` and swap. -/
def jsSubstring (s : List Char) (a b : Int) : List Char :=
  let n : Int := (s.length : Int)
  let a2 := min (max a 0) n
  let b2 := min (max b 0) n
  let lo := min a2 b2
  let hi := max a2 b2
  (s.take hi.toNat).drop lo.toNat

/-- `String.prototype.trim`. -/
def jsTrim (s : List Char) : List Char :=
  ((s.dropWhile isTrimWs).reverse.dropWhile isTrimWs).reverse

/-! ## JSON values and `JSON.parse` -/

/-- Parsed JSON values.  Number literals are kept as their lexemes. -/
inductive Json where
  | null
  | bool (b : Bool)
  | num (lexeme : List Char)
  | str (chars : List Char)
  | arr (elems : List Json)
  | obj (fields : List (List Char × Json))

def isHexDigitCh (c : Char) : Bool :=
  c.isDigit || ('a' ≤ c && c ≤ 'f') || ('A' ≤ c && c ≤ 'F')

def hexVal (c : Char) : Nat :=
  if c.isDigit then c.toNat - 48
  else if 'a' ≤ c then c.toNat - 87
  else c.toNat - 55

/-- Single-character JSON string escapes. -/
def escDecode (c : Char) : Option Char :=
  if c = '"' then some '"'
  else if c = '\\' then some '\\'
  else if c = '/' then some '/'
  else if c = 'b' then some (Char.ofNat 8)
  else if c = 'f' then some (Char.ofNat 12)
  else if c = 'n' then some '\n'
  else if c = 'r' then some '\r'
  else if c = 't' then some '\t'
  else none

/-- Body of a JSON string literal, after the opening quote; returns the decoded
characters and the input remaining after the closing quote. -/
def parseStringBody : List Char → Option (List Char × List Char)
  | [] => none
  | c :: rest =>
    if c = '"' then some ([], rest)
    else if c = '\\' then
      match rest with
      | [] => none
      | 'u' :: h1 :: h2 :: h3 :: h4 :: rest2 =>
        if isHexDigitCh h1 && isHexDigitCh h2 && isHexDigitCh h3 && isHexDigitCh h4 then
          (parseStringBody rest2).map (fun pr =>
            (Char.ofNat (((hexVal h1 * 16 + hexVal h2) * 16 + hexVal h3) * 16 + hexVal h4)
              :: pr.1, pr.2))
        else none
      | e :: rest2 =>
        match escDecode e with
        | some d => (parseStringBody rest2).map (fun pr => (d :: pr.1, pr.2))
        | none => none
    else if c.toNat < 32 then none
    else (parseStringBody rest).map (fun pr => (c :: pr.1, pr.2))

/-- Integer part of a JSON number (no leading zeros unless the part is `0`). -/
def parseIntPart : List Char → Option (List Char × List Char)
  | [] => none
  | c :: r =>
    if c = '0' then some ([c], r)
    else if c.isDigit then some (c :: r.takeWhile (·.isDigit), r.dropWhile (·.isDigit))
    else none

def parseFracPart : List Char → Option (List Char × List Char)
  | '.' :: r =>
    let ds := r.takeWhile (·.isDigit)
    if ds.isEmpty then none else some ('.' :: ds, r.dropWhile (·.isDigit))
  | s => some ([], s)

def parseExpPart : List Char → Option (List Char × List Char)
  | c :: r =>
    if c = 'e' || c = 'E' then
      match r with
      | s :: r2 =>
        if s = '+' || s = '-' then
          let ds := r2.takeWhile (·.isDigit)
          if ds.isEmpty then none else some (c :: s :: ds, r2.dropWhile (·.isDigit))
        else
          let ds := r.takeWhile (·.isDigit)
          if ds.isEmpty then none else some (c :: ds, r.dropWhile (·.isDigit))
      | [] => none
    else some ([], c :: r)
  | [] => some ([], [])

/-- A JSON number lexeme (sign, integer, fraction, exponent). -/
def parseNumber (s : List Char) : Option (List Char × List Char) :=
  let sgn : List Char × List Char :=
    match s with
    | '-' :: r => (['-'], r)
    | _ => ([], s)
  match parseIntPart sgn.2 with
  | none => none
  | some (ip, s2) =>
    match parseFracPart s2 with
    | none => none
    | some (fp, s3) =>
      match parseExpPart s3 with
      | none => none
      | some (ep, s4) => some (sgn.1 ++ ip ++ fp ++ ep, s4)

mutual

/-- Fuel-based recursive-descent JSON value grammar. -/
def parseVal : Nat → List Char → Option (Json × List Char)
  | 0, _ => none
  | fuel + 1, s =>
    match skipWs s with
    | [] => none
    | '{' :: rest =>
      match skipWs rest with
      | '}' :: r2 => some (.obj [], r2)
      | _ => (parseFields fuel rest).map (fun pr => (Json.obj pr.1, pr.2))
    | '[' :: rest =>
      match skipWs rest with
      | ']' :: r2 => some (.arr [], r2)
      | _ => (parseItems fuel rest).map (fun pr => (Json.arr pr.1, pr.2))
    | '"' :: rest => (parseStringBody rest).map (fun pr => (Json.str pr.1, pr.2))
    | 't' :: 'r' :: 'u' :: 'e' :: rest => some (.bool true, rest)
    | 'f' :: 'a' :: 'l' :: 's' :: 'e' :: rest => some (.bool false, rest)
    | 'n' :: 'u' :: 'l' :: 'l' :: rest => some (.null, rest)
    | c :: rest =>
      if c = '-' || c.isDigit then
        (parseNumber (c :: rest)).map (fun pr => (Json.num pr.1, pr.2))
      else none

/-- One or more comma-separated array items followed by `]`. -/
def parseItems : Nat → List Char → Option (List Json × List Char)
  | 0, _ => none
  | fuel + 1, s =>
    match parseVal fuel s with
    | none => none
    | some (v, r) =>
      match skipWs r with
      | ',' :: r2 =>
        match parseItems fuel r2 with
        | none => none
        | some (vs, r3) => some (v :: vs, r3)
      | ']' :: r2 => some ([v], r2)
      | _ => none

/-- One or more comma-separated object members followed by `}`. -/
def parseFields : Nat → List Char → Option (List (List Char × Json) × List Char)
  | 0, _ => none
  | fuel + 1, s =>
    match skipWs s with
    | '"' :: r =>
      match parseStringBody r with
      | none => none
      | some (k, r2) =>
        match skipWs r2 with
        | ':' :: r3 =>
          match parseVal fuel r3 with
          | none => none
          | some (v, r4) =>
            match skipWs r4 with
            | ',' :: r5 =>
              match parseFields fuel r5 with
              | none => none
              | some (fs, r6) => some ((k, v) :: fs, r6)
            | '}' :: r5 => some ([(k, v)], r5)
            | _ => none
        | _ => none
    | _ => none

end

/-- `JSON.parse`: the whole input must be a single value plus whitespace. -/
def jsonParse (s : List Char) : Option Json :=
  match parseVal (2 * s.length + 2) s with
  | some (v, rest) => if skipWs rest = [] then some v else none
  | none => none

/-! ## JavaScript value semantics used by the handlers -/

/-- Property lookup on a parsed object.  `JSON.parse` gives later duplicate
keys precedence, so the last binding wins. -/
def lookupLast (k : List Char) : List (List Char × Json) → Option Json
  | [] => none
  | kv :: rest =>
    match lookupLast k rest with
    | some r => some r
    | none => if kv.1 = k then some kv.2 else none

/-- Property access `v[k]`; `none` models `undefined` (primitives are boxed,
so non-objects yield `undefined` rather than throwing). -/
def jsGet (v : Json) (k : List Char) : Option Json :=
  match v with
  | .obj fields => lookupLast k fields
  | _ => none

/-- Whether a JSON number lexeme denotes zero (no nonzero mantissa digit). -/
def numIsZeroLexeme (lex : List Char) : Bool :=
  (lex.takeWhile (fun c => !(c = 'e' || c = 'E'))).all (fun c => !(c.isDigit && c ≠ '0'))

/-- JavaScript truthiness of a parsed JSON value. -/
def jsTruthy : Json → Bool
  | .null => false
  | .bool b => b
  | .num lex => !numIsZeroLexeme lex
  | .str s => !s.isEmpty
  | .arr _ => true
  | .obj _ => true

mutual

/-- `String(v)` coercion as applied by `Array.prototype.join`. -/
def jsToString : Json → List Char
  | .null => ("null").data
  | .bool true => ("true").data
  | .bool false => ("false").data
  | .num lex => lex
  | .str s => s
  | .arr l => jsToStringElems l
  | .obj _ => ("[object Object]").data

/-- Array `toString`: elements joined with commas, `null` becoming empty. -/
def jsToStringElems : List Json → List Char
  | [] => []
  | x :: xs =>
    let hd := match x with
      | .null => ([] : List Char)
      | v => jsToString v
    match xs with
    | [] => hd
    | _ :: _ => hd ++ ',' :: jsToStringElems xs

end

def jsJoinStrings (sep : List Char) : List (List Char) → List Char
  | [] => []
  | [x] => x
  | x :: xs => x ++ sep ++ jsJoinStrings sep xs

/-- One element as stringified by `Array.prototype.join`: `undefined` (`none`)
and `null` become the empty string. -/
def jsElemToString : Option Json → List Char
  | none => []
  | some .null => []
  | some v => jsToString v

/-- `Array.prototype.join(sep)` over possibly-undefined elements. -/
def jsJoin (sep : List Char) (elems : List (Option Json)) : List Char :=
  jsJoinStrings sep (elems.map jsElemToString)

/-- Optional-chaining member access `v?.k`. -/
def jsOptMember (v : Option Json) (k : List Char) : Option Json :=
  match v with
  | none => none
  | some .null => none
  | some x => jsGet x k

/-- Optional-chaining index access `v?.[0]`. -/
def jsOptIndexZero (v : Option Json) : Option Json :=
  match v with
  | none => none
  | some .null => none
  | some (.arr l) => l.head?
  | some (.str s) => s.head?.map (fun c => Json.str [c])
  | some x => jsGet x (("0").data)

/-! ## `/extract-text`: OCR (vision) response parsing — part_000 lines 219–234 -/

/-- Lines 219–221: take the substring from the first brace onward
(`indexOf` yields -1 when absent, and `substring(-1)` clamps to 0). -/
def visionJsonString (raw : List Char) : List Char :=
  jsSubstringFrom raw (jsIndexOfChar raw '{')

/-- Line 222: `JSON.parse` of the extracted vision substring. -/
def visionParse (raw : List Char) : Option Json :=
  jsonParse (visionJsonString raw)

/-! ## `/extract-text`: translation response parsing — part_000 lines 263–292 -/

/-- Lines 263–273: find the first bracket (throwing when absent), slice, trim,
then cut at one past the last closing bracket. -/
def extractTranslationJson (raw : List Char) : Except String (List Char) :=
  let jsonStart := jsIndexOfChar raw '['
  if jsonStart = -1 then .error ("No JSON found in the response.")
  else
    let jsonStringData := jsTrim (jsSlice raw jsonStart)
    let jsonEndIndex := jsLastIndexOf jsonStringData ']' + 1
    .ok (jsSubstring jsonStringData 0 jsonEndIndex)

/-- Lines 276–292: parse the extracted substring, validate the shape, and
produce `translateData[0]?.translations?.[0].text`. -/
def translationStage (raw : List Char) : Except String Json :=
  match extractTranslationJson raw with
  | .error e => .error e
  | .ok cs =>
    match jsonParse cs with
    | none => .error ("Unexpected token in JSON")
    | some d =>
      if jsTruthy d = false then .error ("Invalid or empty response from Azure Translator API.")
      else
        match d with
        | .arr [] => .error ("Invalid or empty response from Azure Translator API.")
        | .arr (x :: _) =>
          match jsOptIndexZero (jsOptMember (some x) (("translations").data)) with
          | none => .error ("Translation response does not contain text.")
          | some ft =>
            if jsTruthy ft = false then .error ("Translation response does not contain text.")
            else
              match jsGet ft (("text").data) with
              | none => .error ("Translation response does not contain text.")
              | some t =>
                if jsTruthy t = false then .error ("Translation response does not contain text.")
                else .ok t
        | _ => .error ("Invalid or empty response from Azure Translator API.")

/-! ## `/extract-text`: word concatenation — part_000 lines 237–248 -/

/-- `line.words.map(w => w.text).join(" ")`; a `null` word would make the
member access throw a TypeError. -/
def lineText (line : Json) : Except String (List Char) :=
  match jsGet line (("words").data) with
  | some (.arr ws) =>
    if ws.any (fun w => match w with | .null => true | _ => false) then
      .error ("TypeError: word is null")
    else .ok (jsJoin ((" ").data) (ws.map (fun w => jsGet w (("text").data))))
  | _ => .error ("TypeError: line.words is not an array")

/-- Each line appends its joined words plus one trailing space. -/
def linesText : List Json → Except String (List Char)
  | [] => .ok []
  | l :: rest =>
    match lineText l with
    | .error e => .error e
    | .ok t =>
      match linesText rest with
      | .error e => .error e
      | .ok r => .ok (t ++ [' '] ++ r)

/-- `region.lines.forEach(...)` over all regions in order. -/
def regionsText : List Json → Except String (List Char)
  | [] => .ok []
  | r :: rest =>
    match jsGet r (("lines").data) with
    | some (.arr ls) =>
      match linesText ls with
      | .error e => .error e
      | .ok t =>
        match regionsText rest with
        | .error e => .error e
        | .ok tr => .ok (t ++ tr)
    | _ => .error ("TypeError: region.lines is not an array")

/-! ## `/extract-text` handler — part_000 lines 197–307 -/

/-- Request-scoped environment of the `/extract-text` pipeline: whether a file
was uploaded, and the outcome of each fallible external effect (file read,
vision call, translation call, temp-file unlink). -/
structure ExtractEnv where
  hasFile : Bool
  readResult : Except String Unit
  visionResult : Except String (List Char)
  translationResult : Except String (List Char)
  unlinkResult : Except String Unit

/-- How the pipeline fails: the early `return res.status(500)` of the regions
validation (lines 230–233), or a thrown error reaching the catch block. -/
inductive PipeErr where
  | invalidVision
  | thrown (msg : String)

/-- The body of the try block after the file-presence check, producing
`(extractedText, translatedText)` on success. -/
def runPipeline (env : ExtractEnv) : Except PipeErr (List Char × Json) :=
  match env.readResult with
  | .error m => .error (.thrown m)
  | .ok _ =>
    match env.visionResult with
    | .error m => .error (.thrown m)
    | .ok raw =>
      match visionParse raw with
      | none => .error (.thrown ("Unexpected token in JSON"))
      | some vd =>
        if jsTruthy vd = false then .error .invalidVision
        else
          match jsGet vd (("regions").data) with
          | none => .error .invalidVision
          | some rg =>
            if jsTruthy rg = false then .error .invalidVision
            else
              match rg with
              | .arr rs =>
                match regionsText rs with
                | .error m => .error (.thrown m)
                | .ok rawText =>
                  let extractedText := jsTrim rawText
                  if extractedText.isEmpty then
                    .error (.thrown ("No text extracted from the image."))
                  else
                    match env.translationResult with
                    | .error m => .error (.thrown m)
                    | .ok traw =>
                      match translationStage traw with
                      | .error m => .error (.thrown m)
                      | .ok tt =>
                        match env.unlinkResult with
                        | .error m => .error (.thrown m)
                        | .ok _ => .ok (extractedText, tt)
              | _ => .error .invalidVision

/-- An HTTP response: status code and JSON body. -/
structure HttpResp where
  status : Nat
  body : Json

/-- `POST /extract-text` (part_000 lines 197–307). -/
def extractTextHandler (env : ExtractEnv) : HttpResp :=
  if env.hasFile = false then
    ⟨400, .obj [((("error").data), .str (("No image file uploaded.").data))]⟩
  else
    match runPipeline env with
    | .ok (et, tt) =>
      ⟨200, .obj [((("extractedText").data), .str et), ((("translatedText").data), tt)]⟩
    | .error .invalidVision =>
      ⟨500, .obj [((("error").data), .str (("Invalid response from Vision API.").data))]⟩
    | .error (.thrown _) =>
      ⟨500, .obj [((("error").data), .str (("An error occurred while processing the image.").data))]⟩

/-! ## Chat endpoints (`/ask`, `/test-api`) -/

/-- Upstream chat error as surfaced by the SDK: a message and optional
`code`/`type` fields (`none` models `undefined`, omitted by `res.json`). -/
structure ChatErr where
  message : List Char
  code : Option Json
  type : Option Json

def invalidPromptResp : HttpResp :=
  ⟨400, .obj [((("error").data), .str (("Invalid prompt format").data))]⟩

/-- The `validateRequest` middleware predicate (`server.js` lines 74–84,
part_000 lines 76–85): `prompt` must be a string with nonempty trim. -/
def validatePrompt (p : Option Json) : Bool :=
  match p with
  | some (.str s) => !(jsTrim s).isEmpty
  | _ => false

/-- `POST /ask` (identical in both variants): the second component records the
prompt sent upstream, `none` when no upstream call is made. -/
def askHandler (p : Option Json) (upstream : List Char → Except ChatErr (List Json)) :
    HttpResp × Option (List Char) :=
  match p with
  | some (.str s) =>
    if (jsTrim s).isEmpty then (invalidPromptResp, none)
    else
      match upstream s with
      | .ok blocks => (⟨200, .obj [((("response").data), .arr blocks)]⟩, some s)
      | .error e =>
        (⟨500, .obj [((("error").data), .str (("Failed to fetch response from Claude").data)),
                     ((("details").data), .str e.message)]⟩, some s)
  | _ => (invalidPromptResp, none)

/-- Failure body of `/test-api`: `res.json` omits `undefined` fields. -/
def chatErrBody (e : ChatErr) : Json :=
  .obj ([((("status").data), .str (("error").data)), ((("error").data), .str e.message)]
    ++ (match e.code with | some c => [((("code").data), c)] | none => [])
    ++ (match e.type with | some t => [((("type").data), t)] | none => []))

def intLexeme (i : Int) : List Char := (toString i).data

/-- `GET /test-api`, `server.js` variant (lines 86–108): the content blocks are
returned as-is. -/
def testApiServerJs (outcome : Except ChatErr (List Json)) (responseTime : Int) : HttpResp :=
  match outcome with
  | .ok content =>
    ⟨200, .obj [((("status").data), .str (("success").data)),
                ((("responseTime").data), .num (intLexeme responseTime)),
                ((("content").data), .arr content)]⟩
  | .error e => ⟨500, chatErrBody e⟩

/-- `GET /test-api`, part_000 variant (lines 87–114): the content blocks are
joined with `" "` (line 103). -/
def testApiPart0 (outcome : Except ChatErr (List Json)) (responseTime : Int) : HttpResp :=
  match outcome with
  | .ok content =>
    ⟨200, .obj [((("status").data), .str (("success").data)),
                ((("responseTime").data), .num (intLexeme responseTime)),
                ((("content").data), .str (jsJoin ((" ").data) (content.map some)))]⟩
  | .error e => ⟨500, chatErrBody e⟩

/-! ## Signed-URL endpoints -/

/-- Options passed to `generateSasUrl`: permission string and expiry epoch-ms
(`new Date(new Date().valueOf() + 3600 * 1000)`). -/
structure SasParams where
  permissions : List Char
  expiresOnMs : Int
deriving DecidableEq

/-- `GET /generate-sas-url/:blobName` (`server.js` lines 134–152): returns the
response together with the options passed to the storage signer. -/
def generateSasUrlHandler (blobName : List Char) (nowMs : Int)
    (issue : List Char → SasParams → Except (List Char) (List Char)) : HttpResp × SasParams :=
  let params : SasParams := ⟨("w").data, nowMs + 3600 * 1000⟩
  match issue blobName params with
  | .ok u => (⟨200, .obj [((("sasUrl").data), .str u)]⟩, params)
  | .error m => (⟨500, .obj [((("error").data), .str m)]⟩, params)

/-- The filter `blob.name.match(/\.(jpg|jpeg|png|gif|jfif)$/i)` as a
case-insensitive suffix test. -/
def imageExtPattern (name : List Char) : Bool :=
  let lower := name.map Char.toLower
  [(".jpg"), (".jpeg"), (".png"), (".gif"), (".jfif")].any
    (fun e => e.data.isSuffixOf lower)

/-- The `for await` loop of `/get-images` (lines 161–181): for each matching
blob, record the signer options used and the signed URL pushed. -/
def collectImages (issue : List Char → SasParams → List Char) (nowMs : Int) :
    List (List Char) → List (SasParams × List Char)
  | [] => []
  | b :: bs =>
    if imageExtPattern b then
      (⟨("r").data, nowMs + 3600 * 1000⟩, issue b ⟨("r").data, nowMs + 3600 * 1000⟩)
        :: collectImages issue nowMs bs
    else collectImages issue nowMs bs

/-- `GET /get-images` (lines 154–196): 404 when no URL was generated. -/
def getImagesHandler (blobs : List (List Char)) (nowMs : Int)
    (issue : List Char → SasParams → List Char) : HttpResp × List (SasParams × List Char) :=
  let entries := collectImages issue nowMs blobs
  let imageUrls := entries.map (fun pr => pr.2)
  if imageUrls.length = 0 then
    (⟨404, .obj [((("error").data), .str (("No images found").data))]⟩, entries)
  else (⟨200, .arr (imageUrls.map Json.str)⟩, entries)

/-! ## Startup credential check (`server.js` lines 16–27, part_000 17–28) -/

def requiredEnvVars : List (List Char) :=
  [(("ANTHROPIC_API_KEY").data), (("AZURE_STORAGE_ACCOUNT_NAME").data),
   (("AZURE_STORAGE_ACCOUNT_KEY").data), (("AZURE_CONTAINER_NAME").data)]

/-- `!process.env[key]`: an unset variable is `undefined` (falsy) and an empty
string is also falsy. -/
def envTruthy (env : List Char → Option (List Char)) (k : List Char) : Bool :=
  match env k with
  | none => false
  | some v => !v.isEmpty

inductive StartupOutcome where
  | exited (code : Nat)
  | listening
deriving DecidableEq

/-- Process startup: `process.exit(1)` on the first failing check, otherwise
the listener binds. -/
def startup (env : List Char → Option (List Char)) : StartupOutcome :=
  if requiredEnvVars.all (envTruthy env) then .listening else .exited 1

/-! ## Shared lemmas about the string primitives -/

theorem findFirstIndex_not_mem (c : Char) (l : List Char) (h : c ∉ l) :
    findFirstIndex c l = none := by
  induction l with
  | nil => rfl
  | cons a t ih =>
    have ha : ¬(a = c) := fun e => h (e ▸ List.mem_cons_self a t)
    simp only [findFirstIndex, if_neg ha]
    rw [ih (fun hm => h (List.mem_cons_of_mem a hm))]
    rfl

theorem findFirstIndex_cons_self (c : Char) (t : List Char) :
    findFirstIndex c (c :: t) = some 0 := by
  simp [findFirstIndex]

theorem findFirstIndex_append (c : Char) (p t : List Char) (hp : c ∉ p) :
    findFirstIndex c (p ++ t) = (findFirstIndex c t).map (· + p.length) := by
  induction p with
  | nil =>
    rw [List.nil_append]
    cases h : findFirstIndex c t <;> simp [h]
  | cons a q ih =>
    have ha : ¬(a = c) := fun e => hp (e ▸ List.mem_cons_self a q)
    rw [List.cons_append]
    simp only [findFirstIndex, if_neg ha, List.append_eq]
    rw [ih (fun hm => hp (List.mem_cons_of_mem a hm))]
    cases h : findFirstIndex c t with
    | none => simp [h]
    | some v =>
      simp [h]
      omega

theorem dropWhile_append_not (p : Char → Bool) (l1 : List Char) (c : Char) (l2 : List Char)
    (hc : p c = false) :
    (l1 ++ c :: l2).dropWhile p = l1.dropWhile p ++ c :: l2 := by
  induction l1 with
  | nil => simp [List.dropWhile_cons, hc]
  | cons a t ih =>
    by_cases ha : p a <;> simp [List.dropWhile_cons, ha, ih]

/-! ## Claim C1 -/

theorem visionJsonString_append (p j : List Char) (hp : '{' ∉ p) (hj : j.head? = some '{') :
    visionJsonString (p ++ j) = j := by
  cases j with
  | nil => simp at hj
  | cons c j1 =>
    have hc : c = '{' := by simpa using hj
    subst hc
    unfold visionJsonString jsIndexOfChar jsSubstringFrom
    rw [findFirstIndex_append _ _ _ hp, findFirstIndex_cons_self]
    simp [List.drop_left]

/-- Claim C1: for every OCR provider response body made of a brace-free prefix
followed by a valid JSON object payload, the `/extract-text` extraction step
(substring from the first brace, then `JSON.parse`) yields exactly the value
obtained by parsing the clean payload alone. -/
theorem claim1_vision_prefix_extraction (p j : List Char) (m : List (List Char × Json))
    (hp : '{' ∉ p) (hj : j.head? = some '{') (hv : jsonParse j = some (Json.obj m)) :
    visionParse (p ++ j) = some (Json.obj m) ∧ visionParse j = some (Json.obj m) := by
  have h1 : visionJsonString (p ++ j) = j := visionJsonString_append p j hp hj
  have h2 : visionJsonString j = j := by
    have h0 := visionJsonString_append [] j (by simp) hj
    simpa using h0
  unfold visionParse
  rw [h1, h2]
  exact ⟨hv, hv⟩

/-- Witness for claim C1 at a concrete junk prefix and payload. -/
theorem claim1_vision_prefix_extraction_witness :
    visionParse ((("abc").data) ++ (("\x7b\"regions\":[]\x7d").data)) =
      some (Json.obj [((("regions").data), Json.arr [])]) :=
  (claim1_vision_prefix_extraction (("abc").data) (("\x7b\"regions\":[]\x7d").data)
    [((("regions").data), Json.arr [])] (by decide) rfl rfl).1

/-! ## Claim C10 -/

/-- Claim C10: the two extraction stages treat a missing opening delimiter
asymmetrically — a translation body with no bracket raises the explicit
"No JSON found" error, while a vision body with no brace is parsed whole from
offset 0 (`indexOf` gives -1 and `substring(-1)` clamps to the full string). -/
theorem claim10_missing_delimiter_asymmetry :
    (∀ rawT : List Char, '[' ∉ rawT →
        extractTranslationJson rawT = .error ("No JSON found in the response."))
    ∧ (∀ rawV : List Char, '{' ∉ rawV →
        visionJsonString rawV = rawV ∧ visionParse rawV = jsonParse rawV) := by
  constructor
  · intro raw h
    unfold extractTranslationJson jsIndexOfChar
    rw [findFirstIndex_not_mem _ _ h]
    rfl
  · intro raw h
    have h1 : visionJsonString raw = raw := by
      unfold visionJsonString jsIndexOfChar jsSubstringFrom
      rw [findFirstIndex_not_mem _ _ h]
      exact List.drop_zero raw
    refine ⟨h1, ?_⟩
    unfold visionParse
    rw [h1]

/-- Witness for claim C10 at concrete delimiter-free bodies. -/
theorem claim10_missing_delimiter_asymmetry_witness :
    extractTranslationJson (("plain text").data) = .error ("No JSON found in the response.")
    ∧ visionJsonString (("also plain").data) = ("also plain").data :=
  ⟨claim10_missing_delimiter_asymmetry.1 _ (by decide),
   (claim10_missing_delimiter_asymmetry.2 _ (by decide)).1⟩

/-! ## Claims C4, C5, C6 -/

theorem collectImages_eq (issue : List Char → SasParams → List Char) (nowMs : Int)
    (blobs : List (List Char)) :
    collectImages issue nowMs blobs =
      (blobs.filter imageExtPattern).map
        (fun b => (⟨("r").data, nowMs + 3600 * 1000⟩,
          issue b ⟨("r").data, nowMs + 3600 * 1000⟩)) := by
  induction blobs with
  | nil => rfl
  | cons b bs ih =>
    by_cases hb : imageExtPattern b <;> simp [collectImages, List.filter_cons, hb, ih]

/-- Claim C4: when no blob name matches the image-extension set, `/get-images`
answers 404 with the fixed error body, no matter how many non-matching blobs
the container holds. -/
theorem claim4_get_images_404 (blobs : List (List Char)) (nowMs : Int)
    (issue : List Char → SasParams → List Char)
    (h : blobs.filter imageExtPattern = []) :
    getImagesHandler blobs nowMs issue =
      (⟨404, .obj [((("error").data), .str (("No images found").data))]⟩, []) := by
  have hc : collectImages issue nowMs blobs = [] := by
    rw [collectImages_eq, h]
    rfl
  simp [getImagesHandler, hc]

/-- Witness for claim C4: a container with only non-image blobs. -/
theorem claim4_get_images_404_witness :
    getImagesHandler [(("notes.txt").data), (("report.pdf").data)] 0 (fun _ _ => ("u").data) =
      (⟨404, .obj [((("error").data), .str (("No images found").data))]⟩, []) :=
  claim4_get_images_404 _ 0 _ (by decide)

/-- Claim C5: when at least one blob name matches, `/get-images` returns one
signed URL per matching blob — the body is exactly the mapped filter of the
listing, and its length equals the number of matching blobs. -/
theorem claim5_get_images_counts (blobs : List (List Char)) (nowMs : Int)
    (issue : List Char → SasParams → List Char)
    (h : blobs.filter imageExtPattern ≠ []) :
    (getImagesHandler blobs nowMs issue).1 =
      ⟨200, .arr ((blobs.filter imageExtPattern).map
        (fun b => Json.str (issue b ⟨("r").data, nowMs + 3600 * 1000⟩)))⟩
    ∧ ((getImagesHandler blobs nowMs issue).2).length =
        (blobs.filter imageExtPattern).length := by
  have hlen : ((blobs.filter imageExtPattern).length) ≠ 0 := by
    simpa [List.length_eq_zero] using h
  constructor
  · simp [getImagesHandler, collectImages_eq, hlen, Function.comp]
  · simp [getImagesHandler, collectImages_eq, hlen]

/-- Witness for claim C5: one image blob among two blobs. -/
theorem claim5_get_images_counts_witness :
    (getImagesHandler [(("notes.txt").data), (("pic.PNG").data)] 0 (fun _ _ => ("u").data)).1 =
      ⟨200, .arr [Json.str (("u").data)]⟩
    ∧ ((getImagesHandler [(("notes.txt").data), (("pic.PNG").data)] 0
        (fun _ _ => ("u").data)).2).length = 1 :=
  claim5_get_images_counts [(("notes.txt").data), (("pic.PNG").data)] 0
    (fun _ _ => ("u").data) (by decide)

/-- Claim C6: the options passed to the storage signer carry write permission
and a one-hour (3600 s = 3 600 000 ms) expiry for `/generate-sas-url`, and
read permission with the same one-hour expiry for every URL issued by
`/get-images`. -/
theorem claim6_sas_scopes (name : List Char) (nowW nowR : Int)
    (issueW : List Char → SasParams → Except (List Char) (List Char))
    (issueR : List Char → SasParams → List Char)
    (blobs : List (List Char)) (pr : SasParams) (u : List Char)
    (hmem : (pr, u) ∈ (getImagesHandler blobs nowR issueR).2) :
    (generateSasUrlHandler name nowW issueW).2 = ⟨("w").data, nowW + 3600 * 1000⟩
    ∧ pr = ⟨("r").data, nowR + 3600 * 1000⟩ := by
  constructor
  · simp only [generateSasUrlHandler]
    cases h : issueW name ⟨("w").data, nowW + 3600 * 1000⟩ <;> simp [h]
  · have h2 : (getImagesHandler blobs nowR issueR).2 = collectImages issueR nowR blobs := by
      unfold getImagesHandler
      dsimp only
      split <;> rfl
    rw [h2, collectImages_eq] at hmem
    obtain ⟨b, _, he⟩ := List.mem_map.1 hmem
    exact (congrArg Prod.fst he).symm

/-- Witness for claim C6 at a concrete listing with one image blob. -/
theorem claim6_sas_scopes_witness :
    (generateSasUrlHandler (("f.png").data) 0 (fun _ _ => .ok (("u").data))).2 =
      ⟨("w").data, 0 + 3600 * 1000⟩
    ∧ (⟨("r").data, 0 + 3600 * 1000⟩ : SasParams) = ⟨("r").data, 0 + 3600 * 1000⟩ :=
  claim6_sas_scopes (("f.png").data) 0 0 (fun _ _ => .ok (("u").data))
    (fun _ _ => ("u").data) [(("p.jpg").data)] ⟨("r").data, 0 + 3600 * 1000⟩ (("u").data)
    (by decide)

/-! ## Claim C3 -/

/-- Claim C3: `POST /ask` accepts exactly the string prompts that are nonempty
after trimming, answering 200 with a `response` field on upstream success; a
missing, non-string, or whitespace-only prompt is rejected with 400 and no
upstream call is made. -/
theorem claim3_ask_validation (p : Option Json)
    (up : List Char → Except ChatErr (List Json)) :
    (∀ s blocks, p = some (Json.str s) → (jsTrim s).isEmpty = false → up s = .ok blocks →
        askHandler p up = (⟨200, Json.obj [((("response").data), Json.arr blocks)]⟩, some s))
    ∧ (validatePrompt p = false → askHandler p up = (invalidPromptResp, none))
    ∧ (validatePrompt p = true ↔
        ∃ s, p = some (Json.str s) ∧ (jsTrim s).isEmpty = false) := by
  refine ⟨?_, ?_, ?_⟩
  · rintro s blocks rfl ht hu
    simp [askHandler, ht, hu]
  · intro hv
    match p with
    | none => rfl
    | some Json.null => rfl
    | some (Json.bool b) => rfl
    | some (Json.num lex) => rfl
    | some (Json.arr l) => rfl
    | some (Json.obj fs) => rfl
    | some (Json.str s) =>
      have hs : (jsTrim s).isEmpty = true := by
        simpa [validatePrompt] using hv
      simp [askHandler, hs]
  · constructor
    · intro hv
      match p with
      | none => simp [validatePrompt] at hv
      | some Json.null => simp [validatePrompt] at hv
      | some (Json.bool b) => simp [validatePrompt] at hv
      | some (Json.num lex) => simp [validatePrompt] at hv
      | some (Json.arr l) => simp [validatePrompt] at hv
      | some (Json.obj fs) => simp [validatePrompt] at hv
      | some (Json.str s) =>
        refine ⟨s, rfl, ?_⟩
        simpa [validatePrompt] using hv
    · rintro ⟨s, rfl, ht⟩
      simp [validatePrompt, ht]

/-- Witness for claim C3 at a concrete valid prompt and a trivial upstream. -/
theorem claim3_ask_validation_witness :
    askHandler (some (Json.str (("hi").data))) (fun _ => .ok []) =
      (⟨200, Json.obj [((("response").data), Json.arr [])]⟩, some (("hi").data)) :=
  (claim3_ask_validation (some (Json.str (("hi").data))) (fun _ => .ok [])).1
    (("hi").data) [] rfl (by decide) rfl

/-! ## Claim C7 (corrected) -/

/-- Counterexample to claim C7 as stated: in the part_000 variant, `/test-api`
does NOT return the upstream content structure unmodified — line 103 joins the
content array with spaces, so for blocks `["a", "b"]` the `content` field is
the string "a b" rather than the array. -/
theorem claim7_counterexample_part0_join :
    jsGet (testApiPart0 (.ok [Json.str (("a").data), Json.str (("b").data)]) 0).body
        (("content").data) = some (Json.str (("a b").data))
    ∧ jsGet (testApiPart0 (.ok [Json.str (("a").data), Json.str (("b").data)]) 0).body
        (("content").data) ≠
      some (Json.arr [Json.str (("a").data), Json.str (("b").data)]) := by
  constructor
  · rfl
  · intro h
    rw [show jsGet (testApiPart0 (.ok [Json.str (("a").data), Json.str (("b").data)]) 0).body
        (("content").data) = some (Json.str (("a b").data)) from rfl] at h
    exact Json.noConfusion (Option.some.inj h)

/-- Claim C7 (amended): `/ask` (identical in both variants) and the
`server.js` variant of `/test-api` return the upstream content blocks
unmodified inside their envelopes, while the part_000 variant of `/test-api`
returns the blocks joined into one space-separated string. -/
theorem claim7_amended_content_envelopes (blocks : List Json) (rt : Int) (s : List Char)
    (up : List Char → Except ChatErr (List Json))
    (ht : (jsTrim s).isEmpty = false) (hu : up s = .ok blocks) :
    askHandler (some (Json.str s)) up =
      (⟨200, Json.obj [((("response").data), Json.arr blocks)]⟩, some s)
    ∧ testApiServerJs (.ok blocks) rt =
        ⟨200, .obj [((("status").data), .str (("success").data)),
                    ((("responseTime").data), .num (intLexeme rt)),
                    ((("content").data), .arr blocks)]⟩
    ∧ testApiPart0 (.ok blocks) rt =
        ⟨200, .obj [((("status").data), .str (("success").data)),
                    ((("responseTime").data), .num (intLexeme rt)),
                    ((("content").data), .str (jsJoin ((" ").data) (blocks.map some)))]⟩ := by
  refine ⟨?_, rfl, rfl⟩
  simp [askHandler, ht, hu]

/-- Witness for the amended claim C7 at concrete blocks. -/
theorem claim7_amended_content_envelopes_witness :
    askHandler (some (Json.str (("q").data))) (fun _ => .ok [Json.null]) =
      (⟨200, Json.obj [((("response").data), Json.arr [Json.null])]⟩, some (("q").data)) :=
  (claim7_amended_content_envelopes [Json.null] 1 (("q").data) (fun _ => .ok [Json.null])
    (by decide) rfl).1

/-! ## Claim C8 -/

/-- Claim C8: once a file was uploaded, `/extract-text` either succeeds with
both `extractedText` and `translatedText`, or answers 500 with one of the two
fixed messages (the generic catch-block message, or the fixed regions-shape
message) — never a partial result and never upstream error detail. -/
theorem claim8_extract_text_failures (env : ExtractEnv) (h : env.hasFile = true) :
    (∃ et tt, extractTextHandler env =
        ⟨200, .obj [((("extractedText").data), Json.str et),
                    ((("translatedText").data), tt)]⟩)
    ∨ extractTextHandler env =
        ⟨500, .obj [((("error").data),
          .str (("An error occurred while processing the image.").data))]⟩
    ∨ extractTextHandler env =
        ⟨500, .obj [((("error").data),
          .str (("Invalid response from Vision API.").data))]⟩ := by
  unfold extractTextHandler
  rw [h]
  rcases hr : runPipeline env with e | v
  · rcases e with _ | m
    · exact Or.inr (Or.inr (by simp [hr]))
    · exact Or.inr (Or.inl (by simp [hr]))
  · obtain ⟨et, tt⟩ := v
    exact Or.inl ⟨et, tt, by simp [hr]⟩

/-- Witness for claim C8 at an environment whose file read throws. -/
theorem claim8_extract_text_failures_witness :
    (∃ et tt, extractTextHandler ⟨true, .error ("EACCES"), .ok [], .ok [], .ok ()⟩ =
        ⟨200, .obj [((("extractedText").data), Json.str et),
                    ((("translatedText").data), tt)]⟩)
    ∨ extractTextHandler ⟨true, .error ("EACCES"), .ok [], .ok [], .ok ()⟩ =
        ⟨500, .obj [((("error").data),
          .str (("An error occurred while processing the image.").data))]⟩
    ∨ extractTextHandler ⟨true, .error ("EACCES"), .ok [], .ok [], .ok ()⟩ =
        ⟨500, .obj [((("error").data),
          .str (("Invalid response from Vision API.").data))]⟩ :=
  claim8_extract_text_failures ⟨true, .error ("EACCES"), .ok [], .ok [], .ok ()⟩ rfl

/-! ## Claim C9 (corrected) -/

/-- Counterexample to claim C9 as stated: an environment where all four
required variables are present but one holds the empty string — presence does
not make the startup check pass, because `!process.env[key]` tests
truthiness, and the empty string is falsy, so the process still exits. -/
theorem claim9_counterexample_empty_value :
    (requiredEnvVars.all (fun k =>
        ((fun k2 => if k2 = ("ANTHROPIC_API_KEY").data then some ([] : List Char)
          else some (("x").data)) k).isSome) = true)
    ∧ startup (fun k2 => if k2 = ("ANTHROPIC_API_KEY").data then some ([] : List Char)
          else some (("x").data)) = .exited 1 := by
  decide

/-- Claim C9 (amended): if any required credential variable is absent the
process exits with the non-zero code 1 before the listener binds; if all four
are present with non-empty values, the startup check passes and the listener
binds. -/
theorem claim9_amended_startup_guard :
    (∀ env : List Char → Option (List Char), ∀ k ∈ requiredEnvVars,
        env k = none → startup env = .exited 1)
    ∧ (∀ env : List Char → Option (List Char),
        (∀ k ∈ requiredEnvVars, ∃ v, env k = some v ∧ v.isEmpty = false) →
        startup env = .listening) := by
  constructor
  · intro env k hk hnone
    unfold startup
    rw [if_neg]
    intro hall
    have := List.all_eq_true.1 hall k hk
    rw [envTruthy, hnone] at this
    exact Bool.noConfusion this
  · intro env h
    have hall : requiredEnvVars.all (envTruthy env) = true := by
      refine List.all_eq_true.2 (fun k hk => ?_)
      obtain ⟨v, hv, hne⟩ := h k hk
      simp [envTruthy, hv, hne]
    simp [startup, hall]

/-- Witness for the amended claim C9: a fully absent environment exits and a
fully populated one listens. -/
theorem claim9_amended_startup_guard_witness :
    startup (fun _ => none) = .exited 1
    ∧ startup (fun _ => some (("v").data)) = .listening :=
  ⟨claim9_amended_startup_guard.1 _ (("ANTHROPIC_API_KEY").data) (by decide) rfl,
   claim9_amended_startup_guard.2 _ (fun k _ => ⟨(("v").data), rfl, rfl⟩)⟩

/-! ## Claim C2 -/

theorem head_getLast_decompose (j : List Char) (hj1 : j.head? = some '[')
    (hj2 : j.getLast? = some ']') : ∃ mid, j = '[' :: (mid ++ [']']) := by
  cases j with
  | nil => simp at hj1
  | cons c t =>
    have hc : c = '[' := by simpa using hj1
    subst hc
    rcases t.eq_nil_or_concat with rfl | ⟨l, a, ha⟩
    · exact absurd hj2 (by decide)
    · rw [List.concat_eq_append] at ha
      subst ha
      have hl : ('[' :: (l ++ [a])).getLast? = some a := by
        rw [show ('[' :: (l ++ [a])) = (('[' :: l) ++ [a]) from by simp]
        exact List.getLast?_concat _
      rw [hl] at hj2
      obtain rfl : a = ']' := Option.some.inj hj2
      exact ⟨l, rfl⟩

theorem jsSubstring_zero_nat (x : List Char) (k : Nat) (hk : k ≤ x.length) :
    jsSubstring x 0 ((k : Nat) : Int) = x.take k := by
  simp only [jsSubstring]
  have e1 : min (max (0 : Int) 0) ((x.length : Nat) : Int) = 0 := by
    rw [max_self]
    exact min_eq_left (Int.natCast_nonneg _)
  have e2 : min (max ((k : Nat) : Int) 0) ((x.length : Nat) : Int) = ((k : Nat) : Int) := by
    rw [max_eq_left (Int.natCast_nonneg k)]
    exact min_eq_left (by exact_mod_cast hk)
  rw [e1, e2]
  have e3 : min (0 : Int) ((k : Nat) : Int) = 0 := min_eq_left (Int.natCast_nonneg k)
  have e4 : max (0 : Int) ((k : Nat) : Int) = ((k : Nat) : Int) :=
    max_eq_right (Int.natCast_nonneg k)
  rw [e3, e4, Int.toNat_natCast]
  simp

theorem extractTranslationJson_wrapped (p mid s : List Char)
    (hp : '[' ∉ p) (hs : ']' ∉ s) :
    extractTranslationJson (p ++ ('[' :: (mid ++ (']' :: s)))) =
      .ok ('[' :: (mid ++ [']'])) := by
  have hidx : findFirstIndex '[' (p ++ ('[' :: (mid ++ (']' :: s)))) = some p.length := by
    rw [findFirstIndex_append _ _ _ hp, findFirstIndex_cons_self]
    simp
  have h1 : jsIndexOfChar (p ++ ('[' :: (mid ++ (']' :: s)))) '[' = (p.length : Int) := by
    unfold jsIndexOfChar
    rw [hidx]
  have h2 : jsSlice (p ++ ('[' :: (mid ++ (']' :: s)))) ((p.length : Int)) =
      '[' :: (mid ++ (']' :: s)) := by
    unfold jsSlice
    rw [if_neg (by omega), Int.toNat_natCast]
    exact List.drop_left p _
  have hrev : ('[' :: (mid ++ (']' :: s))).reverse =
      s.reverse ++ (']' :: (mid.reverse ++ (['[']))) := by
    simp [List.reverse_cons, List.reverse_append, List.append_assoc]
  have h3 : jsTrim ('[' :: (mid ++ (']' :: s))) =
      ('[' :: (mid ++ [']'])) ++ (s.reverse.dropWhile isTrimWs).reverse := by
    unfold jsTrim
    rw [List.dropWhile_cons, if_neg (by decide)]
    rw [hrev, dropWhile_append_not _ _ _ _ (by decide)]
    simp [List.reverse_append, List.reverse_cons, List.append_assoc]
  have hnot : ']' ∉ s.reverse.dropWhile isTrimWs := fun hm =>
    hs (List.mem_reverse.1 ((List.dropWhile_sublist isTrimWs).mem hm))
  have hrev2 : ((('[' :: (mid ++ [']'])) ++ (s.reverse.dropWhile isTrimWs).reverse)).reverse =
      (s.reverse.dropWhile isTrimWs) ++ (']' :: (mid.reverse ++ (['[']))) := by
    simp [List.reverse_cons, List.reverse_append, List.append_assoc]
  have hfind : findFirstIndex ']'
      ((('[' :: (mid ++ [']'])) ++ (s.reverse.dropWhile isTrimWs).reverse)).reverse =
      some ((s.reverse.dropWhile isTrimWs).length) := by
    rw [hrev2, findFirstIndex_append _ _ _ hnot, findFirstIndex_cons_self]
    simp
  have hnat : (('[' :: (mid ++ [']'])) ++ (s.reverse.dropWhile isTrimWs).reverse).length - 1 -
      (s.reverse.dropWhile isTrimWs).length = mid.length + 1 := by
    simp only [List.length_append, List.length_cons, List.length_reverse, List.length_nil]
    omega
  have h4 : jsLastIndexOf
      (('[' :: (mid ++ [']'])) ++ (s.reverse.dropWhile isTrimWs).reverse) ']'
      = ((mid.length + 1 : Nat) : Int) := by
    unfold jsLastIndexOf
    rw [hfind]
    show (((('[' :: (mid ++ [']'])) ++ (s.reverse.dropWhile isTrimWs).reverse).length - 1 -
      (s.reverse.dropWhile isTrimWs).length : Nat) : Int) = ((mid.length + 1 : Nat) : Int)
    rw [hnat]
  have hcast : (((mid.length + 1 : Nat) : Int) + 1) = ((mid.length + 2 : Nat) : Int) := by
    push_cast
    ring
  have hlen : (mid.length + 2 : Nat) ≤
      (('[' :: (mid ++ [']'])) ++ (s.reverse.dropWhile isTrimWs).reverse).length := by
    simp only [List.length_append, List.length_cons, List.length_reverse, List.length_nil]
    omega
  simp only [extractTranslationJson]
  rw [h1, if_neg (by omega : ¬((p.length : Int)) = -1), h2, h3, h4, hcast,
    jsSubstring_zero_nat _ _ hlen]
  have hjlen : ('[' :: (mid ++ [']'])).length = mid.length + 2 := by
    simp
  rw [← hjlen, List.take_left]

/-- Claim C2: for every translation provider response body made of a valid
JSON array payload (a clean bracketed payload) surrounded by wrapper text
with no bracket before it and no closing bracket after it, the
`/extract-text` translation extraction isolates exactly the clean payload, so
the whole translation stage — including the first-translation text — agrees
with running it on the clean payload alone. -/
theorem claim2_translation_wrapper_extraction (p j s : List Char) (l : List Json)
    (hp : '[' ∉ p) (hs : ']' ∉ s)
    (hj1 : j.head? = some '[') (hj2 : j.getLast? = some ']')
    (hv : jsonParse j = some (Json.arr l)) :
    extractTranslationJson (p ++ j ++ s) = .ok j
    ∧ translationStage (p ++ j ++ s) = translationStage j := by
  obtain ⟨mid, rfl⟩ := head_getLast_decompose j hj1 hj2
  have hshape : p ++ ('[' :: (mid ++ [']'])) ++ s = p ++ ('[' :: (mid ++ (']' :: s))) := by
    simp [List.append_assoc]
  have h1 : extractTranslationJson (p ++ ('[' :: (mid ++ [']'])) ++ s) =
      .ok ('[' :: (mid ++ [']'])) := by
    rw [hshape]
    exact extractTranslationJson_wrapped p mid s hp hs
  have h2 : extractTranslationJson ('[' :: (mid ++ [']'])) =
      .ok ('[' :: (mid ++ [']'])) := by
    have h0 := extractTranslationJson_wrapped [] mid [] (by simp) (by simp)
    simpa using h0
  refine ⟨h1, ?_⟩
  unfold translationStage
  rw [h1, h2]

/-- Witness for claim C2 at a concrete wrapped translation payload. -/
theorem claim2_translation_wrapper_extraction_witness :
    extractTranslationJson ((("xx ").data) ++
        (("[\x7b\"translations\":[\x7b\"text\":\"hi\"\x7d]\x7d]").data) ++ ((" yy").data)) =
      .ok (("[\x7b\"translations\":[\x7b\"text\":\"hi\"\x7d]\x7d]").data)
    ∧ translationStage ((("xx ").data) ++
        (("[\x7b\"translations\":[\x7b\"text\":\"hi\"\x7d]\x7d]").data) ++ ((" yy").data)) =
      translationStage (("[\x7b\"translations\":[\x7b\"text\":\"hi\"\x7d]\x7d]").data) :=
  claim2_translation_wrapper_extraction (("xx ").data)
    (("[\x7b\"translations\":[\x7b\"text\":\"hi\"\x7d]\x7d]").data) ((" yy").data)
    [Json.obj [((("translations").data),
      Json.arr [Json.obj [((("text").data), Json.str (("hi").data))]])]]
    (by decide) (by decide) rfl rfl rfl
